import Mathlib

/-!
Verification of the exception-handling lowering subsystem of the compiler
back end (ir/irlandingpad.cpp) and the ABI rewrite interface (gen/abi.h).

The shallow embedding mirrors the C++ state of `IRLandingPad`:
`std::deque` fields become Lean lists with the front of the deque at the
head of the list, and the `std::stack` fields become lists whose head is
the stack's top.  Basic blocks, statements, class-info symbols and storage
slots are identified by natural numbers; the IR builder's side effects are
captured as an emitted instruction trace.
-/

set_option autoImplicit false

/-- One entry of the handler list, mirroring `IRLandingPadInfo`:
a catch entry carries a target block and a catch type, a finally entry
carries the cleanup statement.  Exactly as in the C++ record, unused
fields are null (`none`). -/
structure IRLandingPadInfo where
  target : Option Nat
  finallyBody : Option Nat
  catchType : Option Nat
deriving DecidableEq

/-- The `IRLandingPadInfo(Catch*, BasicBlock*)` constructor: target block
created for the catch body, no finally body, resolved catch type. -/
def mkCatchInfo (ctype tgt : Nat) : IRLandingPadInfo :=
  ⟨some tgt, none, some ctype⟩

/-- The `IRLandingPadInfo(Statement*)` constructor: finally body only. -/
def mkFinallyInfo (body : Nat) : IRLandingPadInfo :=
  ⟨none, some body, none⟩

/-- Arguments of the `llvm.eh.selector` intrinsic call. -/
inductive SelArg
  | ehptr (v : Nat)
  | personality
  | classinfo (sym : Nat)
  | zero
deriving DecidableEq

/-- Instructions emitted into the landing-pad block.  `callEhException v`
produces the exception-pointer value `v`; `storeExc`/`callResume` record
which value they receive. -/
inductive Instr
  | callEhException (v : Nat)
  | storeExc (v : Nat)
  | callEhSelector (args : List SelArg)
  | runFinally (body : Nat)
  | condBr (ctype tgt : Nat)
  | callResume (v : Nat)
  | unreachable
deriving DecidableEq

/-- The mutable state of `IRLandingPad`.  `infos` is the persistent handler
list (deque front first), `unpushed_infos` the staged entries,
`nInfos` the checkpoint stack and `padBBs` the unwind-target stack (heads
are the stack tops), `catch_var` the lazily allocated shared exception
slot.  `nextSlot` models the allocator's supply of fresh `alloca`
addresses (`DtoAlloca`). -/
structure LPState where
  infos : List IRLandingPadInfo
  unpushed_infos : List IRLandingPadInfo
  nInfos : List Nat
  padBBs : List Nat
  catch_var : Option Nat
  nextSlot : Nat
deriving DecidableEq

def initLP : LPState := ⟨[], [], [], [], none, 0⟩

namespace IRLandingPad

/-- `IRLandingPad::addCatch`: stages a catch entry with `push_front`. -/
def addCatch (st : LPState) (ctype tgt : Nat) : LPState :=
  { st with unpushed_infos := mkCatchInfo ctype tgt :: st.unpushed_infos }

/-- `IRLandingPad::addFinally`: stages a finally entry with `push_front`. -/
def addFinally (st : LPState) (body : Nat) : LPState :=
  { st with unpushed_infos := mkFinallyInfo body :: st.unpushed_infos }

/-- The selector argument list built in `constructLandingPad` lines
112-141: class-info symbols of catch entries are inserted at the *front*
while scanning `infos` front to back, a `0` sentinel is appended when some
finally is in scope, then the personality-function reference and finally
the exception pointer are each inserted at the front. -/
def buildSelectorArgs (ehp : Nat) (infos : List IRLandingPadInfo) : List SelArg :=
  let catches := infos.foldl
    (fun acc i =>
      match i.finallyBody with
      | some _ => acc
      | none => SelArg.classinfo (i.catchType.getD 0) :: acc) []
  let withZero :=
    if infos.any (fun i => i.finallyBody.isSome) then catches ++ [SelArg.zero]
    else catches
  SelArg.ehptr ehp :: SelArg.personality :: withZero

/-- Working state of the walk over the reversed handler list
(lines 154-179): `live`/`liveN` are `this->infos`/`this->nInfos`, which
the finally case truncates, and `code` is the emitted trace. -/
structure WalkState where
  live : List IRLandingPadInfo
  liveN : List Nat
  code : List Instr
deriving DecidableEq

/-- One iteration of the reverse walk.  A finally entry truncates the live
list to the top checkpoint (`this->infos.resize(this->nInfos.top())`;
`resize` to a smaller size is `take`, and the checkpoint is at most the
list length in every reachable state), pops the checkpoint and re-lowers
the cleanup body; a catch entry emits the type-id compare and conditional
branch to its target. -/
def walkStep (w : WalkState) (info : IRLandingPadInfo) : WalkState :=
  match info.finallyBody with
  | some b =>
      { live := w.live.take (w.liveN.headD 0)
        liveN := w.liveN.tail
        code := w.code ++ [Instr.runFinally b] }
  | none =>
      { w with
        code := w.code ++ [Instr.condBr (info.catchType.getD 0) (info.target.getD 0)] }

/-- The instructions emitted before the walk: the `llvm.eh.exception`
call, the store of the exception pointer into the shared slot when some
catch is in scope and the slot exists (lines 143-148), and the
`llvm.eh.selector` call. -/
def padPrefixCode (st : LPState) (ehp : Nat) : List Instr :=
  [Instr.callEhException ehp]
    ++ (if st.infos.any (fun i => i.finallyBody.isNone) && st.catch_var.isSome
        then [Instr.storeExc ehp]
        else [])
    ++ [Instr.callEhSelector (buildSelectorArgs ehp st.infos)]

/-- `IRLandingPad::constructLandingPad`: emits the prefix, walks the
handler list in reverse of append order threading the live
`infos`/`nInfos` through the finally truncations, appends the
`_d_eh_resume_unwind` call and `unreachable`, and restores the live list
and checkpoint stack from the copies taken before the walk
(lines 156-157 and 182-183). -/
def constructLandingPadFull (st : LPState) (ehp : Nat) : List Instr × LPState :=
  let copyInfos := st.infos
  let copyN := st.nInfos
  let w := st.infos.reverse.foldl walkStep ⟨st.infos, st.nInfos, padPrefixCode st ehp⟩
  (w.code ++ [Instr.callResume ehp, Instr.unreachable],
   { st with infos := copyInfos, nInfos := copyN })

def constructLandingPadCode (st : LPState) (ehp : Nat) : List Instr :=
  (constructLandingPadFull st ehp).1

/-- `IRLandingPad::push`: records the pre-splice length as a checkpoint,
splices the staged entries onto the end of the handler list, constructs
the landing pad, and pushes the landing block as the unwind target. -/
def pushFull (st : LPState) (inBB : Nat) : List Instr × LPState :=
  let st1 : LPState :=
    { st with
      nInfos := st.infos.length :: st.nInfos
      infos := st.infos ++ st.unpushed_infos
      unpushed_infos := [] }
  let r := constructLandingPadFull st1 0
  (r.1, { r.2 with padBBs := inBB :: r.2.padBBs })

def pushState (st : LPState) (inBB : Nat) : LPState :=
  (pushFull st inBB).2

/-- `IRLandingPad::pop`: pops the unwind target, truncates the handler
list to the top checkpoint and pops it.  The C++ performs these pops with
no emptiness check whatsoever: on an empty stack they are `std::stack`
underflow, undefined behavior with no diagnostic.  The embedding is
therefore defined only on the non-empty case; `none` marks the absence of
any defined result there (the code computes nothing meaningful), not an
error path detected by the code. -/
def pop (st : LPState) : Option LPState :=
  match st.padBBs, st.nInfos with
  | _ :: bbs, n :: ns =>
      some { st with padBBs := bbs, infos := st.infos.take n, nInfos := ns }
  | _, _ => none

/-- `IRLandingPad::get`: the current unwind target, null when no pad is
active. -/
def get (st : LPState) : Option Nat :=
  st.padBBs.head?

/-- `IRLandingPad::getExceptionStorage`: lazily allocates the shared
exception slot on first use and returns it thereafter. -/
def getExceptionStorage (st : LPState) : Nat × LPState :=
  match st.catch_var with
  | some v => (v, st)
  | none =>
      (st.nextSlot, { st with catch_var := some st.nextSlot, nextSlot := st.nextSlot + 1 })

end IRLandingPad

/-- Storage decision made for a catch clause's bound variable by the
`IRLandingPadInfo(Catch*, BasicBlock*)` constructor: either the clause's
local aliases the shared slot (a bitcast of the same storage), or it is
its own alloca into which the shared slot's value is copied after the
exception is captured. -/
inductive CatchVarStorage
  | shared (slot : Nat)
  | own (slot : Nat) (copiedFromShared : Nat)
deriving DecidableEq

/-- Lines 16-38 of the catch-info constructor.  When the variable has no
nested references, its local value is a bitcast of the shared slot
(storage identity: same location), so the copy-out at line 35 is a no-op
on storage.  When it has nested references, `DtoDeclarationExp` allocas an
independent slot and the shared slot's value is copied into it. -/
def lowerCatchVar (st : LPState) (nestedref : Bool) : CatchVarStorage × LPState :=
  if nestedref then
    let own := st.nextSlot
    let st1 : LPState := { st with nextSlot := st.nextSlot + 1 }
    let r := IRLandingPad.getExceptionStorage st1
    (CatchVarStorage.own own r.1, r.2)
  else
    let r := IRLandingPad.getExceptionStorage st
    (CatchVarStorage.shared r.1, r.2)

/-- Shared-slot freshness: the allocated slot id is below the supply
counter. -/
def StoreInv (st : LPState) : Bool :=
  match st.catch_var with
  | none => true
  | some v => decide (v < st.nextSlot)

/-- One call into the Exception Scope Stack interface. -/
inductive LPOp
  | addCatch (ctype tgt : Nat)
  | addFinally (body : Nat)
  | push (bb : Nat)
  | pop
deriving DecidableEq

def applyOp (st : LPState) : LPOp → Option LPState
  | LPOp.addCatch c t => some (IRLandingPad.addCatch st c t)
  | LPOp.addFinally b => some (IRLandingPad.addFinally st b)
  | LPOp.push bb => some (IRLandingPad.pushState st bb)
  | LPOp.pop => IRLandingPad.pop st

def runOpsFrom (st : LPState) : List LPOp → Option LPState
  | [] => some st
  | op :: rest =>
      match applyOp st op with
      | some st1 => runOpsFrom st1 rest
      | none => none

def runOps (ops : List LPOp) : Option LPState :=
  runOpsFrom initLP ops

/-- The scope-stack invariant: the unwind-target stack and the checkpoint
stack have the same number of entries, every checkpoint is at most the
handler-list length, and checkpoints weakly decrease from the top (head)
towards the bottom of the stack, i.e. weakly increase bottom-to-top. -/
def LPInv (st : LPState) : Prop :=
  st.padBBs.length = st.nInfos.length
    ∧ (∀ n ∈ st.nInfos, n ≤ st.infos.length)
    ∧ st.nInfos.Pairwise (fun a b => b ≤ a)

/-- Semantics of the generated dispatch block for a given raised
exception, abstracted by which class-info symbols the runtime selector
matchP: finally bodies are recorded in execution order; the first
matching conditional branch transfers to its target; the resume call ends
the pad. -/
inductive Outcome
  | reached (tgt : Nat) (finallysRun : List Nat)
  | resumed (finallysRun : List Nat)
  | fellOff (finallysRun : List Nat)
deriving DecidableEq

def dispatchAux (matchP : Nat → Bool) (fins : List Nat) : List Instr → Outcome
  | [] => Outcome.fellOff fins
  | Instr.condBr c t :: rest =>
      if matchP c then Outcome.reached t fins else dispatchAux matchP fins rest
  | Instr.runFinally b :: rest => dispatchAux matchP (fins ++ [b]) rest
  | Instr.callResume _ :: _ => Outcome.resumed fins
  | _ :: rest => dispatchAux matchP fins rest

def dispatch (code : List Instr) (matchP : Nat → Bool) : Outcome :=
  dispatchAux matchP [] code

/- ABI rewrite interface (gen/abi.h). -/

/-- A low-level parameter or return representation after the ABI
rewrite. -/
inductive LowParam
  | direct (t : Nat)
  | indirectByval (t : Nat)
  | sret (t : Nat)
deriving DecidableEq

/-- A function signature: immutable source-level return and parameter
types, plus the mutable low-level parameter/return list the rewrite
produces. -/
structure TypeFunction where
  retType : Nat
  paramTypes : List Nat
  lowRet : Option LowParam
  lowParams : List LowParam
deriving DecidableEq

/-- A target ABI strategy: the `returnInArg` and `passByVal` decisions,
each a function of the source-level type only. -/
structure TargetABI where
  returnInArg : Nat → Bool
  passByVal : Nat → Bool

/-- Modelled from the spec: gen/abi.h declares
`TargetABI::rewriteFunctionType(TypeFunction*)` pure virtual and no
implementation is present in the sources; per the spec the rewrite
mutates the low-level parameter/return list to reflect the
`returnInArg`/`passByVal` decisions, which depend only on the unchanged
source-level types: a hidden sret pointer when the return goes in an
argument, an indirect byval pointer for parameters passed indirectly,
and direct passing otherwise. -/
def rewriteFunctionType (abi : TargetABI) (t : TypeFunction) : TypeFunction :=
  { t with
    lowRet :=
      if abi.returnInArg t.retType then none else some (LowParam.direct t.retType)
    lowParams :=
      (if abi.returnInArg t.retType then [LowParam.sret t.retType] else [])
        ++ t.paramTypes.map
            (fun p => if abi.passByVal p then LowParam.indirectByval p else LowParam.direct p) }

/-- The single instruction the walk emits for one handler entry. -/
def instrOf (i : IRLandingPadInfo) : Instr :=
  match i.finallyBody with
  | some b => Instr.runFinally b
  | none => Instr.condBr (i.catchType.getD 0) (i.target.getD 0)

/-- The catch test an entry contributes to the dispatch cascade. -/
def catchOf (i : IRLandingPadInfo) : Option (Nat × Nat) :=
  match i.finallyBody with
  | some _ => none
  | none => some (i.catchType.getD 0, i.target.getD 0)

/-- The selector entry a handler contributes. -/
def catchSym (i : IRLandingPadInfo) : Option SelArg :=
  match i.finallyBody with
  | some _ => none
  | none => some (SelArg.classinfo (i.catchType.getD 0))

/-- The (type, target) pairs of the conditional branches of a trace, in
emission order. -/
def catchTests : List Instr → List (Nat × Nat)
  | [] => []
  | Instr.condBr c t :: rest => (c, t) :: catchTests rest
  | _ :: rest => catchTests rest

def isResume : Instr → Bool
  | Instr.callResume _ => true
  | _ => false

theorem walk_code (entries : List IRLandingPadInfo) :
    ∀ w : IRLandingPad.WalkState,
      (entries.foldl IRLandingPad.walkStep w).code = w.code ++ entries.map instrOf := by
  induction entries with
  | nil => intro w; simp
  | cons e es ih =>
      intro w
      rw [List.foldl_cons, ih, List.map_cons]
      cases h : e.finallyBody with
      | none => simp [IRLandingPad.walkStep, instrOf, h]
      | some b => simp [IRLandingPad.walkStep, instrOf, h]

theorem catchTests_append (a b : List Instr) :
    catchTests (a ++ b) = catchTests a ++ catchTests b := by
  induction a with
  | nil => rfl
  | cons i rest ih => cases i <;> simp [catchTests, ih]

theorem catchTests_map_instrOf (l : List IRLandingPadInfo) :
    catchTests (l.map instrOf) = l.filterMap catchOf := by
  induction l with
  | nil => rfl
  | cons i rest ih =>
      cases h : i.finallyBody with
      | none => simp [instrOf, catchOf, catchTests, h, ih]
      | some b => simp [instrOf, catchOf, catchTests, h, ih]

theorem catchTests_padPrefix (st : LPState) (ehp : Nat) :
    catchTests (IRLandingPad.padPrefixCode st ehp) = [] := by
  unfold IRLandingPad.padPrefixCode
  split <;> rfl

theorem catchTests_constructLandingPad (st : LPState) (ehp : Nat) :
    catchTests (IRLandingPad.constructLandingPadCode st ehp)
      = st.infos.reverse.filterMap catchOf := by
  simp only [IRLandingPad.constructLandingPadCode, IRLandingPad.constructLandingPadFull]
  rw [walk_code, catchTests_append, catchTests_append, catchTests_padPrefix,
    catchTests_map_instrOf]
  simp [catchTests]

theorem selector_foldl (l : List IRLandingPadInfo) :
    ∀ acc : List SelArg,
      l.foldl (fun acc i =>
        match i.finallyBody with
        | some _ => acc
        | none => SelArg.classinfo (i.catchType.getD 0) :: acc) acc
      = (l.filterMap catchSym).reverse ++ acc := by
  induction l with
  | nil => intro acc; simp
  | cons i rest ih =>
      intro acc
      cases h : i.finallyBody with
      | none => simp [h, ih, catchSym]
      | some b => simp [h, ih, catchSym]

theorem isResume_instrOf (i : IRLandingPadInfo) : isResume (instrOf i) = false := by
  cases h : i.finallyBody <;> simp [instrOf, isResume, h]

theorem pushState_eq (st : LPState) (bb : Nat) :
    IRLandingPad.pushState st bb
      = ⟨st.infos ++ st.unpushed_infos, [], st.infos.length :: st.nInfos,
         bb :: st.padBBs, st.catch_var, st.nextSlot⟩ := rfl

/-- C1: the dispatch cascade emitted by the landing-pad constructor tests
handler descriptors in reverse of handler-list append order, which is
innermost-try-first and, within one try (whose catches are staged with
push_front in declaration order), source declaration order.  First
conjunct: the cascade's tests are exactly the catches of the reversed
handler list.  Second conjunct: with an outer catch (type 1) and an inner
catch (type 2), the inner test comes first.  Remaining conjuncts: for a
try with catches of types 1, 2, 3 and targets 10, 11, 12 and an exception
matching type 2, the dispatch reaches target 11 and reaches neither
target 10 nor target 12. -/
theorem dispatch_cascade_order :
    (∀ (st : LPState) (ehp : Nat),
        catchTests (IRLandingPad.constructLandingPadCode st ehp)
          = st.infos.reverse.filterMap catchOf)
    ∧ catchTests (IRLandingPad.constructLandingPadCode
        (IRLandingPad.pushState (IRLandingPad.addCatch
          (IRLandingPad.pushState (IRLandingPad.addCatch initLP 1 10) 100) 2 11) 101) 0)
        = [(2, 11), (1, 10)]
    ∧ dispatch (IRLandingPad.constructLandingPadCode
        (IRLandingPad.pushState (IRLandingPad.addCatch (IRLandingPad.addCatch
          (IRLandingPad.addCatch initLP 1 10) 2 11) 3 12) 100) 0)
        (fun c => c == 2) = Outcome.reached 11 []
    ∧ (∀ fins : List Nat,
        dispatch (IRLandingPad.constructLandingPadCode
          (IRLandingPad.pushState (IRLandingPad.addCatch (IRLandingPad.addCatch
            (IRLandingPad.addCatch initLP 1 10) 2 11) 3 12) 100) 0)
          (fun c => c == 2) ≠ Outcome.reached 10 fins)
    ∧ (∀ fins : List Nat,
        dispatch (IRLandingPad.constructLandingPadCode
          (IRLandingPad.pushState (IRLandingPad.addCatch (IRLandingPad.addCatch
            (IRLandingPad.addCatch initLP 1 10) 2 11) 3 12) 100) 0)
          (fun c => c == 2) ≠ Outcome.reached 12 fins) := by
  refine ⟨catchTests_constructLandingPad, by decide, by decide, ?_, ?_⟩
  all_goals
    intro fins h
    rw [show dispatch (IRLandingPad.constructLandingPadCode
        (IRLandingPad.pushState (IRLandingPad.addCatch (IRLandingPad.addCatch
          (IRLandingPad.addCatch initLP 1 10) 2 11) 3 12) 100) 0)
        (fun c => c == 2) = Outcome.reached 11 [] from by decide] at h
    simp at h

/-- C2 counterexample: for an outer catch of type 1 with an inner catch of
type 2, the selector argument list is the exception pointer, then the
personality-function reference, then the class-infos innermost-catch
first; it is not the list the claim states (personality first, then the
exception pointer, class-infos outermost-catch first). -/
theorem selector_args_counterexample :
    IRLandingPad.buildSelectorArgs 7
        (IRLandingPad.pushState (IRLandingPad.addCatch
          (IRLandingPad.pushState (IRLandingPad.addCatch initLP 1 10) 100) 2 11) 101).infos
      = [SelArg.ehptr 7, SelArg.personality, SelArg.classinfo 2, SelArg.classinfo 1]
    ∧ IRLandingPad.buildSelectorArgs 7
        (IRLandingPad.pushState (IRLandingPad.addCatch
          (IRLandingPad.pushState (IRLandingPad.addCatch initLP 1 10) 100) 2 11) 101).infos
      ≠ [SelArg.personality, SelArg.ehptr 7, SelArg.classinfo 1, SelArg.classinfo 2] := by
  decide

/-- C2 amended: the selector argument list consists of the exception
pointer, then the personality-function reference, then one type-selector
entry per Catch descriptor in scope arranged in reverse of handler-list
order (most recently appended first), and, if any Finally descriptor is
in scope, a sentinel 0 catch-all entry appended after all catch
entries. -/
theorem selector_args_structure (ehp : Nat) (infos : List IRLandingPadInfo) :
    IRLandingPad.buildSelectorArgs ehp infos
      = SelArg.ehptr ehp :: SelArg.personality ::
          ((infos.filterMap catchSym).reverse
            ++ (if infos.any (fun i => i.finallyBody.isSome) then [SelArg.zero]
                else [])) := by
  unfold IRLandingPad.buildSelectorArgs
  rw [selector_foldl]
  split <;> simp

/-- C3: for a try-with-finally (cleanup body 5) nested inside a
try-with-catch (type 1, target 10), an exception matched by the outer
catch runs the finally exactly once, before reaching the catch target
(the dispatch outcome records the finally executions, in order, that
happen before the target is reached); the trace contains exactly one
replay of the cleanup body; and the finally's walk step truncates the
live handler list to the outer entries and pops the top checkpoint,
simulating exit of the inner scope before the outer entries are
processed. -/
theorem finally_once_before_outer_catch :
    dispatch (IRLandingPad.constructLandingPadCode
      (IRLandingPad.pushState (IRLandingPad.addFinally
        (IRLandingPad.pushState (IRLandingPad.addCatch initLP 1 10) 100) 5) 101) 0)
      (fun c => c == 1) = Outcome.reached 10 [5]
    ∧ (IRLandingPad.constructLandingPadCode
        (IRLandingPad.pushState (IRLandingPad.addFinally
          (IRLandingPad.pushState (IRLandingPad.addCatch initLP 1 10) 100) 5) 101) 0).countP
        (fun i => i == Instr.runFinally 5) = 1
    ∧ IRLandingPad.walkStep ⟨[mkCatchInfo 1 10, mkFinallyInfo 5], [1, 0], []⟩
        (mkFinallyInfo 5)
      = ⟨[mkCatchInfo 1 10], [0], [Instr.runFinally 5]⟩ := by
  decide

/-- C4: every synthesized landing pad starts by capturing the exception
pointer and ends its no-match path with exactly one call of the
unwind-resume primitive, passing that same captured pointer value,
followed by an unreachable terminator; the constructor is total, so
exhausting all handlers is not a generation-time failure.  Stated for any
state with at least one handler in scope. -/
theorem resume_unwind_path (st : LPState) (ehp : Nat) (h : st.infos ≠ []) :
    (IRLandingPad.constructLandingPadCode st ehp).head?
        = some (Instr.callEhException ehp)
    ∧ (∃ p, IRLandingPad.constructLandingPadCode st ehp
          = p ++ [Instr.callResume ehp, Instr.unreachable])
    ∧ (IRLandingPad.constructLandingPadCode st ehp).countP isResume = 1 := by
  refine ⟨?_, ⟨_, rfl⟩, ?_⟩
  · simp only [IRLandingPad.constructLandingPadCode, IRLandingPad.constructLandingPadFull]
    rw [walk_code]
    simp [IRLandingPad.padPrefixCode]
  · simp only [IRLandingPad.constructLandingPadCode, IRLandingPad.constructLandingPadFull]
    rw [walk_code, List.countP_append, List.countP_append]
    have h1 : (IRLandingPad.padPrefixCode st ehp).countP isResume = 0 := by
      unfold IRLandingPad.padPrefixCode
      split <;> rfl
    have h2 : (st.infos.reverse.map instrOf).countP isResume = 0 := by
      rw [List.countP_eq_zero]
      intro a ha
      obtain ⟨i, _, rfl⟩ := List.mem_map.mp ha
      simp [isResume_instrOf]
    rw [h1, h2]
    rfl

/-- Witness for C4 at a concrete state with one catch handler in scope. -/
theorem resume_unwind_path_witness :
    ((IRLandingPad.pushState (IRLandingPad.addCatch initLP 1 10) 100).infos ≠ [])
    ∧ ((IRLandingPad.constructLandingPadCode
          (IRLandingPad.pushState (IRLandingPad.addCatch initLP 1 10) 100) 3).head?
        = some (Instr.callEhException 3)
      ∧ (∃ p, IRLandingPad.constructLandingPadCode
            (IRLandingPad.pushState (IRLandingPad.addCatch initLP 1 10) 100) 3
          = p ++ [Instr.callResume 3, Instr.unreachable])
      ∧ (IRLandingPad.constructLandingPadCode
          (IRLandingPad.pushState (IRLandingPad.addCatch initLP 1 10) 100) 3).countP
          isResume = 1) :=
  ⟨by decide, resume_unwind_path _ 3 (by decide)⟩

/-- C5: for every state of the exception scope stack, push immediately
followed by pop succeeds and restores the handler list (hence its exact
length) and the current unwind target to their pre-push values. -/
theorem push_pop_roundtrip (st : LPState) (bb : Nat) :
    ∃ st' : LPState,
      IRLandingPad.pop (IRLandingPad.pushState st bb) = some st'
      ∧ st'.infos = st.infos
      ∧ st'.infos.length = st.infos.length
      ∧ IRLandingPad.get st' = IRLandingPad.get st := by
  refine ⟨⟨st.infos, [], st.nInfos, st.padBBs, st.catch_var, st.nextSlot⟩, ?_, rfl, rfl, rfl⟩
  rw [pushState_eq]
  simp [IRLandingPad.pop, List.take_left]

/-- C6: the landing-pad constructor returns with the live handler list and
the live checkpoint stack equal to their values at entry, for every state;
and the restoration is not vacuous: for the nested catch/finally state the
walk's working copy ends truncated (the finally entry removed) even though
the returned state's list equals the entry value. -/
theorem constructLandingPad_preserves_lists :
    (∀ (st : LPState) (ehp : Nat),
        (IRLandingPad.constructLandingPadFull st ehp).2.infos = st.infos
        ∧ (IRLandingPad.constructLandingPadFull st ehp).2.nInfos = st.nInfos)
    ∧ ((IRLandingPad.pushState (IRLandingPad.addFinally
            (IRLandingPad.pushState (IRLandingPad.addCatch initLP 1 10) 100) 5)
          101).infos.reverse.foldl IRLandingPad.walkStep
          ⟨(IRLandingPad.pushState (IRLandingPad.addFinally
              (IRLandingPad.pushState (IRLandingPad.addCatch initLP 1 10) 100) 5)
            101).infos,
           (IRLandingPad.pushState (IRLandingPad.addFinally
              (IRLandingPad.pushState (IRLandingPad.addCatch initLP 1 10) 100) 5)
            101).nInfos, []⟩).live
        ≠ (IRLandingPad.pushState (IRLandingPad.addFinally
            (IRLandingPad.pushState (IRLandingPad.addCatch initLP 1 10) 100) 5)
          101).infos
    ∧ (IRLandingPad.constructLandingPadFull
        (IRLandingPad.pushState (IRLandingPad.addFinally
            (IRLandingPad.pushState (IRLandingPad.addCatch initLP 1 10) 100) 5)
          101) 0).2.infos
      = (IRLandingPad.pushState (IRLandingPad.addFinally
            (IRLandingPad.pushState (IRLandingPad.addCatch initLP 1 10) 100) 5)
          101).infos :=
  ⟨fun _ _ => ⟨rfl, rfl⟩, by decide, by decide⟩

/-- C7: the exception-storage slot is allocated at most once, lazily (a
second accessor call returns the same slot with no further allocation);
successive catch clauses whose variables are not referenced from nested
functions all reuse that one shared slot; a clause whose variable is
referenced from a nested function gets its own independently allocated
slot, distinct from the shared slot, with the shared slot's value copied
into it after capture (the own-slot decision records the shared source
slot, which is the allocated catch variable). -/
theorem exception_storage_sharing :
    (∀ st : LPState,
        IRLandingPad.getExceptionStorage (IRLandingPad.getExceptionStorage st).2
          = ((IRLandingPad.getExceptionStorage st).1,
             (IRLandingPad.getExceptionStorage st).2))
    ∧ (∀ st : LPState,
        (lowerCatchVar st false).1
            = CatchVarStorage.shared (IRLandingPad.getExceptionStorage st).1
        ∧ (lowerCatchVar (lowerCatchVar st false).2 false).1
            = CatchVarStorage.shared (IRLandingPad.getExceptionStorage st).1)
    ∧ (∀ st : LPState, StoreInv st = true →
        ∃ cv : Nat,
          (lowerCatchVar st true).1 = CatchVarStorage.own st.nextSlot cv
          ∧ st.nextSlot ≠ cv
          ∧ (lowerCatchVar st true).2.catch_var = some cv) := by
  refine ⟨?_, ?_, ?_⟩
  · intro st
    cases h : st.catch_var with
    | some v => simp [IRLandingPad.getExceptionStorage, h]
    | none => simp [IRLandingPad.getExceptionStorage, h]
  · intro st
    cases h : st.catch_var with
    | some v => simp [lowerCatchVar, IRLandingPad.getExceptionStorage, h]
    | none => simp [lowerCatchVar, IRLandingPad.getExceptionStorage, h]
  · intro st hinv
    cases h : st.catch_var with
    | some v =>
        refine ⟨v, ?_, ?_, ?_⟩
        · simp [lowerCatchVar, IRLandingPad.getExceptionStorage, h]
        · have hlt : v < st.nextSlot := by
            have := hinv
            unfold StoreInv at this
            rw [h] at this
            exact of_decide_eq_true this
          exact fun he => absurd he.symm (Nat.ne_of_lt hlt)
        · simp [lowerCatchVar, IRLandingPad.getExceptionStorage, h]
    | none =>
        refine ⟨st.nextSlot + 1, ?_, ?_, ?_⟩
        · simp [lowerCatchVar, IRLandingPad.getExceptionStorage, h]
        · exact Nat.ne_of_lt (Nat.lt_succ_self _)
        · simp [lowerCatchVar, IRLandingPad.getExceptionStorage, h]

/-- Witness for C7's nested-reference part at the initial state. -/
theorem exception_storage_sharing_witness :
    StoreInv initLP = true
    ∧ (∃ cv : Nat,
        (lowerCatchVar initLP true).1 = CatchVarStorage.own initLP.nextSlot cv
        ∧ initLP.nextSlot ≠ cv
        ∧ (lowerCatchVar initLP true).2.catch_var = some cv) :=
  ⟨by decide, exception_storage_sharing.2.2 initLP (by decide)⟩

/-- C8: the code implements the non-empty half of the claim: with a frame
present, pop discards the current unwind target, truncates the handler
list to the length recorded by the top frame and pops that frame,
restoring the enclosing scope's target.  The empty-frame half is not
implemented: pop contains no emptiness check, assert or diagnostic, so
popping an empty frame stack is an unchecked container underflow
(undefined behavior, which may silently corrupt state) rather than the
fatal diagnosed abort the claim requires; evaluating the embedding at the
failing input (the initial state, whose frame stack is empty) yields no
defined result. -/
theorem pop_missing_empty_check :
    (∀ (infos unp : List IRLandingPadInfo) (n : Nat) (ns : List Nat) (bb : Nat)
        (bbs : List Nat) (cv : Option Nat) (nx : Nat),
      IRLandingPad.pop ⟨infos, unp, n :: ns, bb :: bbs, cv, nx⟩
        = some ⟨infos.take n, unp, ns, bbs, cv, nx⟩)
    ∧ IRLandingPad.pop initLP = none :=
  ⟨fun _ _ _ _ _ _ _ _ => rfl, rfl⟩

/-- C9: the ABI signature rewrite is idempotent: applying
rewriteFunctionType twice to the same signature produces the same
low-level parameter/return list as applying it once, for every ABI
strategy. -/
theorem rewriteFunctionType_idempotent (abi : TargetABI) (t : TypeFunction) :
    rewriteFunctionType abi (rewriteFunctionType abi t)
      = rewriteFunctionType abi t := by
  simp [rewriteFunctionType]

theorem applyOp_inv (st st' : LPState) (op : LPOp)
    (h1 : LPInv st) (h2 : applyOp st op = some st') : LPInv st' := by
  cases op with
  | addCatch c t =>
      simp only [applyOp, Option.some.injEq] at h2
      subst h2
      exact h1
  | addFinally b =>
      simp only [applyOp, Option.some.injEq] at h2
      subst h2
      exact h1
  | push bb =>
      simp only [applyOp, Option.some.injEq] at h2
      subst h2
      rw [pushState_eq]
      obtain ⟨hlen, hle, hpw⟩ := h1
      refine ⟨by simp [hlen], ?_, ?_⟩
      · intro n hn
        rcases List.mem_cons.mp hn with hn | hn
        · subst hn
          simp [List.length_append, Nat.le_add_right]
        · calc n ≤ st.infos.length := hle n hn
            _ ≤ (st.infos ++ st.unpushed_infos).length := by
                simp [List.length_append, Nat.le_add_right]
      · exact List.pairwise_cons.mpr ⟨fun b hb => hle b hb, hpw⟩
  | pop =>
      simp only [applyOp] at h2
      rcases st with ⟨infos, unp, nIn, bbs, cv, nx⟩
      cases bbs with
      | nil => simp [IRLandingPad.pop] at h2
      | cons bb bbs =>
          cases nIn with
          | nil => simp [IRLandingPad.pop] at h2
          | cons n ns =>
              simp only [IRLandingPad.pop, Option.some.injEq] at h2
              subst h2
              obtain ⟨hlen, hle, hpw⟩ := h1
              have hn : n ≤ infos.length := hle n (List.mem_cons_self n ns)
              refine ⟨by simpa using hlen, ?_, (List.pairwise_cons.mp hpw).2⟩
              intro m hm
              have hmn : m ≤ n := (List.pairwise_cons.mp hpw).1 m hm
              calc m ≤ n := hmn
                _ = (infos.take n).length := by
                    simp [List.length_take, Nat.min_eq_left hn]

theorem runOpsFrom_inv (ops : List LPOp) :
    ∀ st st' : LPState, LPInv st → runOpsFrom st ops = some st' → LPInv st' := by
  induction ops with
  | nil =>
      intro st st' h1 h2
      simp only [runOpsFrom, Option.some.injEq] at h2
      subst h2
      exact h1
  | cons op rest ih =>
      intro st st' h1 h2
      simp only [runOpsFrom] at h2
      cases hap : applyOp st op with
      | none => rw [hap] at h2; cases h2
      | some st1 =>
          rw [hap] at h2
          exact ih st1 st' (applyOp_inv st st1 op h1 hap) h2

/-- C10: for every sequence of addCatch, addFinally, push and pop
operations run from the empty exception scope stack in which every pop
finds a frame (a failing pop makes the whole run fail), the invariant
holds: the unwind-target stack and the checkpoint stack have the same
number of entries, every checkpoint is at most the handler-list length,
and checkpoints weakly increase from the bottom of the stack to its
top. -/
theorem scope_stack_invariant (ops : List LPOp) (st : LPState)
    (h : runOps ops = some st) : LPInv st := by
  have h0 : LPInv initLP := ⟨rfl, by simp [initLP], by simp [initLP]⟩
  exact runOpsFrom_inv ops initLP st h0 h

/-- Witness for C10 on a concrete balanced operation sequence, which runs
back to the initial state. -/
theorem scope_stack_invariant_witness :
    runOps [LPOp.addCatch 1 10, LPOp.push 100, LPOp.addFinally 5, LPOp.push 101,
      LPOp.pop, LPOp.pop] = some initLP
    ∧ LPInv initLP :=
  ⟨by decide,
   scope_stack_invariant
     [LPOp.addCatch 1 10, LPOp.push 100, LPOp.addFinally 5, LPOp.push 101,
       LPOp.pop, LPOp.pop] initLP (by decide)⟩
